import Mathlib

/-!
Verification development for the sniaff-mitmdump-mcp repository.

This file gives a shallow embedding, in Lean, of the core of the
repository: the traffic log store (src/core/traffic-store.ts), the shared
state client (src/core/state-client.ts) and the proxy lifecycle manager
(src/core/proxy-manager.ts), together with the status tool
(src/tools/status-tool.ts).  File contents are modelled as lists of
characters, JavaScript string builtins (split, trim, includes,
toLowerCase) are modelled by executable Lean functions with the same
semantics, and the JSON builtins (JSON.parse and JSON.stringify applied
to one traffic record) are taken as parameters of the operations that
use them, since they are runtime builtins and not repository code.
Asynchronous external effects of the lifecycle manager (state file
reads, port probing, directory creation, process spawn, state
publications) are injected through explicit environment records, so
every failure point of the source can be exercised.
-/

namespace Sniaff

/-! ## JavaScript string primitives, modelled on lists of characters -/

/-- Model of the JavaScript expression "s.includes(pat)" on decoded
character lists: true iff pat occurs contiguously inside s (true for an
empty pat, as in JavaScript). -/
def listContainsSub : List Char → List Char → Bool
  | [], p => p.isEmpty
  | c :: t, p => p.isPrefixOf (c :: t) || listContainsSub t p

/-- Model of the JavaScript expression "s.split(String.fromCharCode 10)":
splits at every newline character; the empty string yields one empty
segment, and a trailing newline yields a trailing empty segment. -/
def jsSplitLines : List Char → List (List Char)
  | [] => [[]]
  | c :: rest =>
    if c = '\n' then [] :: jsSplitLines rest
    else
      match jsSplitLines rest with
      | [] => [[c]]
      | l :: ls => (c :: l) :: ls

/-- Model of the JavaScript expression "s.trim()": removes whitespace
from both ends. -/
def jsTrim (l : List Char) : List Char :=
  ((l.dropWhile Char.isWhitespace).reverse.dropWhile Char.isWhitespace).reverse

/-- Model of the JavaScript expression "lines.join(newline)". -/
def joinLines : List (List Char) → List Char
  | [] => []
  | [s] => s
  | s :: s2 :: rest => s ++ '\n' :: joinLines (s2 :: rest)

/-- Size in bytes of the UTF-8 encoding of a character list; models the
"stats.size" of a file holding exactly this text. -/
def byteSize (l : List Char) : Nat :=
  (l.map Char.utf8Size).sum

/-- Model of the JavaScript expression "s.toLowerCase()" (restricted to
the character-wise lowering that the filters of this repository rely
on). -/
def jsToLower (s : String) : List Char :=
  s.toList.map Char.toLower

/-! ## Data model of one traffic record (interface JsonlEntry of
src/core/traffic-store.ts) -/

/-- One name/value pair, as used for headers and query strings. -/
structure NameValue where
  name : String
  value : String
deriving DecidableEq, Repr

/-- The request part of a JsonlEntry. -/
structure JsonlRequest where
  method : String
  url : String
  host : String
  path : String
  httpVersion : String
  headers : List NameValue
  queryString : List NameValue
  bodySize : Int
  body : Option String
deriving DecidableEq, Repr

/-- The response part of a JsonlEntry. -/
structure JsonlResponse where
  status : Int
  statusText : String
  httpVersion : String
  headers : List NameValue
  contentType : String
  bodySize : Int
  body : Option String
deriving DecidableEq, Repr

/-- The timing breakdown of a JsonlEntry. -/
structure JsonlTimings where
  blocked : Int
  dns : Int
  connect : Int
  ssl : Int
  send : Int
  wait : Int
  receive : Int
deriving DecidableEq, Repr

/-- One captured request/response exchange, as stored on one line of the
traffic log (interface JsonlEntry). -/
structure JsonlEntry where
  id : String
  timestamp : String
  timestampMs : Int
  request : JsonlRequest
  response : JsonlResponse
  timings : JsonlTimings
  serverIPAddress : Option String
deriving DecidableEq, Repr

/-- The request part of the summary projection returned by query. -/
structure SummaryRequest where
  method : String
  url : String
  bodySize : Int
deriving DecidableEq, Repr

/-- The response part of the summary projection returned by query. -/
structure SummaryResponse where
  status : Int
  statusText : String
  mimeType : String
  bodySize : Int
deriving DecidableEq, Repr

/-- The summary projection of one record (interface HarEntrySummary of
src/types/har.ts), as built by TrafficStore.query. -/
structure HarEntrySummary where
  id : String
  timestamp : String
  request : SummaryRequest
  response : SummaryResponse
deriving DecidableEq, Repr

/-- Derived traffic statistics (interface TrafficStats). -/
structure TrafficStats where
  totalEntries : Nat
  totalRequestBytes : Int
  totalResponseBytes : Int
  entriesLast60s : Nat
deriving DecidableEq, Repr

/-- The filter and pagination options of TrafficStore.query (interface
QueryOptions).  Optional string fields model both "absent" (none) and
"present" (some); the source tests the string fields for truthiness, so
an empty string behaves like an absent filter. -/
structure QueryOptions where
  startTimeMs : Option Int
  endTimeMs : Option Int
  urlPattern : Option String
  method : Option String
  statusCode : Option Int
  statusRange : Option String
  contentType : Option String
  limit : Nat
  offset : Nat
  includeBody : Bool
deriving DecidableEq, Repr

/-! ## TrafficStore (src/core/traffic-store.ts) -/

/-- The mutable state of a TrafficStore: the in-memory record cache and
the byte position through which the log file has been read. -/
structure StoreState where
  entries : List JsonlEntry
  lastReadPosition : Nat
deriving DecidableEq, Repr

/-- The state of a freshly constructed TrafficStore. -/
def initialStore : StoreState :=
  { entries := [], lastReadPosition := 0 }

/-- The line decomposition performed by reloadEntries:
content.trim().split on newlines, keeping only nonempty lines. -/
def splitNonEmptyLines (content : List Char) : List (List Char) :=
  (jsSplitLines (jsTrim content)).filter (fun l => 0 < l.length)

/-- The per-line parsing loop of reloadEntries: each line is parsed
independently; a line on which JSON.parse throws (parse returns none) is
skipped with a warning instead of aborting the reload. -/
def loadLines (parse : List Char → Option JsonlEntry)
    (lines : List (List Char)) : List JsonlEntry :=
  lines.filterMap parse

/-- The record set loaded by reloadEntries from a given file content. -/
def reloadEntries (parse : List Char → Option JsonlEntry)
    (content : List Char) : List JsonlEntry :=
  loadLines parse (splitNonEmptyLines content)

/-- TrafficStore.reloadEntries: if the file has not grown past
lastReadPosition the in-memory cache is kept; otherwise the whole file
is re-read, parsed line by line, and the read position advances to the
file size. -/
def reloadStore (parse : List Char → Option JsonlEntry)
    (st : StoreState) (fileContent : List Char) : StoreState :=
  let size := byteSize fileContent
  if size ≤ st.lastReadPosition then st
  else
    { entries := reloadEntries parse fileContent, lastReadPosition := size }

/-- The first-character parse of the statusRange filter: the source
computes parseInt applied to the first character of the range string;
none models the NaN outcome on a non-digit first character. -/
def parseIntDigit (s : String) : Option Int :=
  match s.toList with
  | [] => none
  | c :: _ => if c.isDigit then some ((c.toNat : Int) - 48) else none

/-- The statusRange predicate of TrafficStore.query: with rangeStart the
parsed leading digit times 100, a record survives iff its response
status lies in the closed interval from rangeStart to rangeStart plus
99; a NaN rangeStart (none) keeps nothing, as both comparisons with NaN
are false in JavaScript. -/
def statusRangeKeeps (r : String) (status : Int) : Bool :=
  match parseIntDigit r with
  | none => false
  | some n => decide (n * 100 ≤ status) && decide (status ≤ n * 100 + 99)

/-- The filter cascade of TrafficStore.query, in source order: inclusive
time range, case-insensitive URL substring, exact method, exact status
code, status-class range, case-insensitive content-type substring.
String-valued options are tested for truthiness, so an empty string
disables the corresponding filter. -/
def applyFilters (opts : QueryOptions) (entries : List JsonlEntry) :
    List JsonlEntry :=
  let f1 := match opts.startTimeMs with
    | some t => entries.filter (fun e => t ≤ e.timestampMs)
    | none => entries
  let f2 := match opts.endTimeMs with
    | some t => f1.filter (fun e => e.timestampMs ≤ t)
    | none => f1
  let f3 := match opts.urlPattern with
    | some p =>
      if p = "" then f2
      else f2.filter (fun e => listContainsSub (jsToLower e.request.url) (jsToLower p))
    | none => f2
  let f4 := match opts.method with
    | some m =>
      if m = "" then f3
      else f3.filter (fun e => e.request.method = m)
    | none => f3
  let f5 := match opts.statusCode with
    | some c => f4.filter (fun e => e.response.status = c)
    | none => f4
  let f6 := match opts.statusRange with
    | some r =>
      if r = "" then f5
      else f5.filter (fun e => statusRangeKeeps r e.response.status)
    | none => f5
  match opts.contentType with
  | some ct =>
    if ct = "" then f6
    else f6.filter (fun e => listContainsSub (jsToLower e.response.contentType) (jsToLower ct))
  | none => f6

/-- The sort step of TrafficStore.query.  The source sorts with the
comparator subtracting timestamps, i.e. by timestampMs descending, using
the stable Array.prototype.sort; this is modelled by the stable
insertion sort with respect to the matching total preorder. -/
def sortByTsDesc (l : List JsonlEntry) : List JsonlEntry :=
  l.insertionSort (fun a b => b.timestampMs ≤ a.timestampMs)

/-- The summary projection applied by TrafficStore.query to each
paginated record. -/
def summarize (e : JsonlEntry) : HarEntrySummary :=
  { id := e.id
    timestamp := e.timestamp
    request :=
      { method := e.request.method
        url := e.request.url
        bodySize := e.request.bodySize }
    response :=
      { status := e.response.status
        statusText := e.response.statusText
        mimeType := e.response.contentType
        bodySize := e.response.bodySize } }

/-- The result of TrafficStore.query: the paginated summaries and the
filtered count before pagination. -/
structure QueryResult where
  entries : List HarEntrySummary
  total : Nat
deriving DecidableEq, Repr

/-- TrafficStore.query on the loaded record set: filter, sort by
timestampMs descending, take the total before pagination, slice from
offset to offset plus limit, and project each survivor to a summary. -/
def queryLoaded (opts : QueryOptions) (loaded : List JsonlEntry) : QueryResult :=
  let sorted := sortByTsDesc (applyFilters opts loaded)
  let total := sorted.length
  let paginated := (sorted.drop opts.offset).take opts.limit
  { entries := paginated.map summarize, total := total }

/-- TrafficStore.query including the leading reload from the log file. -/
def queryStore (parse : List Char → Option JsonlEntry) (st : StoreState)
    (fileContent : List Char) (opts : QueryOptions) :
    QueryResult × StoreState :=
  let st1 := reloadStore parse st fileContent
  (queryLoaded opts st1.entries, st1)

/-- TrafficStore.getEntry restricted to its lookup step: the first
loaded record with the given id, or none. -/
def findEntryById (loaded : List JsonlEntry) (entryId : String) :
    Option JsonlEntry :=
  loaded.find? (fun e => e.id = entryId)

/-- TrafficStore.getStats on the loaded record set: one pass summing the
request and response body sizes and counting the records of the last 60
seconds of wall-clock time. -/
def statsOf (loaded : List JsonlEntry) (nowMs : Int) : TrafficStats :=
  let sixtySecondsAgo := nowMs - 60000
  loaded.foldl
    (fun acc e =>
      { acc with
        totalRequestBytes := acc.totalRequestBytes + e.request.bodySize
        totalResponseBytes := acc.totalResponseBytes + e.response.bodySize
        entriesLast60s :=
          acc.entriesLast60s + (if sixtySecondsAgo ≤ e.timestampMs then 1 else 0) })
    { totalEntries := loaded.length
      totalRequestBytes := 0
      totalResponseBytes := 0
      entriesLast60s := 0 }

/-- The outcome of TrafficStore.clear: the number of removed records,
the new store state, and the rewritten file content. -/
structure ClearOutcome where
  removed : Nat
  store : StoreState
  fileContent : List Char
deriving DecidableEq, Repr

/-- TrafficStore.clear: reload, retain the records with timestampMs at
least the threshold (or none when no threshold is given), rewrite the
file as the serialized survivors joined by newlines with a trailing
newline when the joined content is nonempty, and reset lastReadPosition
to the size of the rewritten file.  The serialize parameter models
JSON.stringify on one record. -/
def clearStore (parse : List Char → Option JsonlEntry)
    (serialize : JsonlEntry → List Char) (st : StoreState)
    (fileContent : List Char) (beforeTimeMs : Option Int) : ClearOutcome :=
  let st1 := reloadStore parse st fileContent
  let originalCount := st1.entries.length
  let remaining := match beforeTimeMs with
    | some t => st1.entries.filter (fun e => t ≤ e.timestampMs)
    | none => ([] : List JsonlEntry)
  let cleared := originalCount - remaining.length
  let content := joinLines (remaining.map serialize)
  let newFile := if content = [] then [] else content ++ ['\n']
  { removed := cleared
    store := { entries := remaining, lastReadPosition := byteSize newFile }
    fileContent := newFile }

/-! ## Shared session state (src/types/session.ts and
src/core/state-client.ts) -/

/-- The derived client connection hint published on ready. -/
structure AndroidProxyConfig where
  host : String
  port : Nat
deriving DecidableEq, Repr

/-- The mitm sub-object of the shared state document (interface
MitmState).  Every field is optional here because the stored sub-object
is read back from JSON and merged field-wise; an absent field is none. -/
structure MitmState where
  status : Option String
  proxyPort : Option Nat
  proxyHost : Option String
  pid : Option Nat
  androidProxyConfig : Option AndroidProxyConfig
  error : Option String
deriving DecidableEq, Repr

/-- The empty mitm sub-object, the spread of an absent current value. -/
def emptyMitm : MitmState :=
  { status := none, proxyPort := none, proxyHost := none, pid := none
    androidProxyConfig := none, error := none }

/-- A partial mitm update as passed to StateClient.updateMitm.  An outer
none means the field is not mentioned by the update; for pid, some none
models the explicit undefined that stopProxy passes, which clears the
stored field under the JavaScript object spread. -/
structure MitmPatch where
  status : Option String
  proxyPort : Option Nat
  proxyHost : Option String
  pid : Option (Option Nat)
  androidProxyConfig : Option AndroidProxyConfig
  error : Option String
deriving DecidableEq, Repr

/-- The patch that mentions no field. -/
def emptyPatch : MitmPatch :=
  { status := none, proxyPort := none, proxyHost := none, pid := none
    androidProxyConfig := none, error := none }

/-- The shallow object-spread merge of a partial update into the current
mitm sub-object: every field mentioned by the patch replaces the stored
field, every field not mentioned is preserved. -/
def applyPatch (cur : MitmState) (p : MitmPatch) : MitmState :=
  { status := match p.status with | some s => some s | none => cur.status
    proxyPort := match p.proxyPort with | some v => some v | none => cur.proxyPort
    proxyHost := match p.proxyHost with | some v => some v | none => cur.proxyHost
    pid := match p.pid with | some v => v | none => cur.pid
    androidProxyConfig :=
      match p.androidProxyConfig with | some v => some v | none => cur.androidProxyConfig
    error := match p.error with | some v => some v | none => cur.error }

/-- The shared per-session state document (interface SessionState),
parametric in the payload type of the android sub-object, which this
system never inspects. -/
structure SessionState (α : Type) where
  sessionId : String
  type : String
  status : String
  createdAt : String
  stoppedAt : Option String
  android : Option α
  mitm : Option MitmState
deriving DecidableEq, Repr

/-- The document transformation performed by StateClient.updateMitm
between its read and its write: the whole document is kept, with only
the mitm sub-object replaced by the shallow merge of the patch into the
current sub-object (an absent sub-object spreads as empty). -/
def updateMitmDoc {α : Type} (doc : SessionState α) (p : MitmPatch) :
    SessionState α :=
  { doc with mitm := some (applyPatch (doc.mitm.getD emptyMitm) p) }

/-! ## Errors (src/types/errors.ts) -/

/-- The error taxonomy (enum ErrorCode). -/
inductive ErrCode where
  | SESSION_NOT_FOUND
  | SESSION_INVALID_STATE
  | PROXY_ALREADY_RUNNING
  | PROXY_NOT_RUNNING
  | MITMDUMP_NOT_FOUND
  | MITMDUMP_START_FAILED
  | MITMDUMP_CRASHED
  | PORT_UNAVAILABLE
  | STATE_READ_FAILED
  | STATE_WRITE_FAILED
  | DATABASE_ERROR
  | QUERY_FAILED
  | ENTRY_NOT_FOUND
  | INVALID_ARGUMENT
  | INTERNAL_ERROR
  | TIMEOUT
deriving DecidableEq, Repr

/-- A raised MitmError: a stable code and a human-readable message. -/
structure MErr where
  code : ErrCode
  msg : String
deriving DecidableEq, Repr

/-! ## Proxy lifecycle manager (src/core/proxy-manager.ts) -/

/-- An in-memory session record (interface ProxySession). -/
structure ProxySession where
  sessionId : String
  status : String
  proxyPort : Nat
  proxyHost : String
  pid : Option Nat
  jsonlPath : String
  logPath : String
  startedAt : Option String
  stoppedAt : Option String
deriving DecidableEq, Repr

/-- Association-list lookup, modelling Map.prototype.get. -/
def alGet {α : Type} (k : String) : List (String × α) → Option α
  | [] => none
  | (k2, v) :: rest => if k2 = k then some v else alGet k rest

/-- Association-list update, modelling Map.prototype.set. -/
def alSet {α : Type} (k : String) (v : α) :
    List (String × α) → List (String × α)
  | [] => [(k, v)]
  | (k2, v2) :: rest =>
    if k2 = k then (k, v) :: rest else (k2, v2) :: alSet k v rest

/-- Association-list removal, modelling Map.prototype.delete. -/
def alErase {α : Type} (k : String) (l : List (String × α)) :
    List (String × α) :=
  l.filter (fun p => p.1 ≠ k)

/-- The in-memory authority of the ProxyManager: the session map and the
per-session traffic stores. -/
structure MgrState where
  sessions : List (String × ProxySession)
  stores : List (String × StoreState)
deriving DecidableEq, Repr

/-- The input of ProxyManager.startProxy.  The optional fields are
tested for truthiness by the source, so a zero port or an empty host
behave like absent values. -/
structure StartInput where
  sessionId : String
  port : Option Nat
  listenHost : Option String
deriving DecidableEq, Repr

/-- The outcomes of the external effects that one startProxy call can
perform, injected so that every failure point of the source can be
exercised: the shared-state read, the port scan, the mitm directory
creation, the session log registration, the three state publications,
the traffic-store initialization and the process spawn (whose ok value
is the pid). -/
structure StartEnv (α : Type) where
  readState : Except MErr (SessionState α)
  findPort : Option Nat
  ensureDir : Except MErr String
  registerLog : Except MErr Unit
  pubStarting : Except MErr Unit
  storeInit : Except MErr Unit
  spawnResult : Except MErr Nat
  pubReady : Except MErr Unit
  pubError : Except MErr Unit
  now : String
deriving Repr

/-- The observable outcome of one startProxy call: the final manager
state, the successful shared-state publications in order, whether a
capture process was spawned, and the returned session or raised
error. -/
structure StartOutcome where
  mgr : MgrState
  pubs : List MitmPatch
  spawned : Bool
  result : Except MErr ProxySession

/-- The guard at the top of startProxy: an in-memory session for this id
whose status is ready or starting. -/
def hasActiveSession (mgr : MgrState) (sid : String) : Bool :=
  match alGet sid mgr.sessions with
  | some ex => ex.status = "ready" || ex.status = "starting"
  | none => false

/-- The starting publication of startProxy (status, port, host). -/
def startingPatch (port : Nat) (host : String) : MitmPatch :=
  { emptyPatch with
    status := some "starting", proxyPort := some port, proxyHost := some host }

/-- The ready publication of startProxy (full state plus the derived
Android connection hint). -/
def readyPatch (port : Nat) (host : String) (pid : Nat) : MitmPatch :=
  { emptyPatch with
    status := some "ready", proxyPort := some port, proxyHost := some host
    pid := some (some pid)
    androidProxyConfig := some { host := "10.0.2.2", port := port } }

/-- The error publication of the catch block of startProxy. -/
def errorPatch (msg : String) : MitmPatch :=
  { emptyPatch with status := some "error", error := some msg }

/-- The catch block of startProxy: the in-memory session transitions to
status error (it stays in the map), the error message is published into
shared state, and the call fails with MITMDUMP_START_FAILED carrying the
underlying message.  When the error publication itself fails, its raw
error propagates instead. -/
def startProxyCatch {α : Type} (env : StartEnv α) (mgr : MgrState)
    (sid : String) (sessionAtFail : ProxySession) (pubs : List MitmPatch)
    (spawned : Bool) (cause : MErr) : StartOutcome :=
  let sessionErr := { sessionAtFail with status := "error" }
  let mgr2 : MgrState := { mgr with sessions := alSet sid sessionErr mgr.sessions }
  match env.pubError with
  | Except.error e2 => ⟨mgr2, pubs, spawned, Except.error e2⟩
  | Except.ok _ =>
    ⟨mgr2, pubs ++ [errorPatch cause.msg], spawned,
      Except.error ⟨ErrCode.MITMDUMP_START_FAILED,
        "Failed to start mitmdump: " ++ cause.msg⟩⟩

/-- The try block of startProxy: initialize and register the traffic
store, spawn the capture process (the opening of the process-output log
stream, which can also fail inside the try block, is folded into the
spawn outcome), transition the session to ready with pid and start
time, publish the full ready state, and return the session; any failure
is routed to the catch block with the session as it stood at the
failure point. -/
def startProxyTry {α : Type} (env : StartEnv α) (mgr : MgrState)
    (sid : String) (port : Nat) (host : String) (session : ProxySession)
    (pubs : List MitmPatch) : StartOutcome :=
  match env.storeInit with
  | Except.error e => startProxyCatch env mgr sid session pubs false e
  | Except.ok _ =>
    let mgr2 : MgrState := { mgr with stores := alSet sid initialStore mgr.stores }
    match env.spawnResult with
    | Except.error e => startProxyCatch env mgr2 sid session pubs false e
    | Except.ok pid =>
      let session2 := { session with
        pid := some pid, status := "ready", startedAt := some env.now }
      let mgr3 : MgrState := { mgr2 with sessions := alSet sid session2 mgr2.sessions }
      match env.pubReady with
      | Except.error e => startProxyCatch env mgr3 sid session2 pubs true e
      | Except.ok _ =>
        ⟨mgr3, pubs ++ [readyPatch port host pid], true, Except.ok session2⟩

/-- The port resolution of startProxy: a truthy caller-supplied port
takes precedence, otherwise the outcome of the port scan is used. -/
def resolvePort {α : Type} (env : StartEnv α) (input : StartInput) :
    Option Nat :=
  match input.port with
  | some p => if p = 0 then env.findPort else some p
  | none => env.findPort

/-- The listen-host default of startProxy: a truthy caller value, else
the any-interface address. -/
def resolveListenHost (input : StartInput) : String :=
  match input.listenHost with
  | some h => if h = "" then "0.0.0.0" else h
  | none => "0.0.0.0"

/-- ProxyManager.startProxy: reject an id that is already starting or
ready, require the shared document to exist with peer status active,
resolve the port (caller value first, then the port scan), default the
listen host, create the mitm directory, insert the session in starting
state, register the session log, publish the starting state, and enter
the try block.  Failures before the try block propagate as raised. -/
def startProxy {α : Type} (env : StartEnv α) (mgr : MgrState)
    (input : StartInput) : StartOutcome :=
  let sid := input.sessionId
  if hasActiveSession mgr sid then
    ⟨mgr, [], false,
      Except.error ⟨ErrCode.PROXY_ALREADY_RUNNING,
        "Proxy already running for session: " ++ sid⟩⟩
  else
    match env.readState with
    | Except.error e => ⟨mgr, [], false, Except.error e⟩
    | Except.ok st =>
      if st.status ≠ "active" then
        ⟨mgr, [], false,
          Except.error ⟨ErrCode.SESSION_INVALID_STATE,
            "Session is not active: " ++ sid⟩⟩
      else
        match resolvePort env input with
        | none =>
          ⟨mgr, [], false,
            Except.error ⟨ErrCode.PORT_UNAVAILABLE,
              "No available port in range"⟩⟩
        | some port =>
          if port = 0 then
            ⟨mgr, [], false,
              Except.error ⟨ErrCode.PORT_UNAVAILABLE,
                "No available port in range"⟩⟩
          else
            let host := resolveListenHost input
            match env.ensureDir with
            | Except.error e => ⟨mgr, [], false, Except.error e⟩
            | Except.ok mitmDir =>
              let session : ProxySession :=
                { sessionId := sid, status := "starting", proxyPort := port
                  proxyHost := host, pid := none
                  jsonlPath := mitmDir ++ "/traffic.jsonl"
                  logPath := mitmDir ++ "/mitmdump.log"
                  startedAt := none, stoppedAt := none }
              let mgr1 : MgrState :=
                { mgr with sessions := alSet sid session mgr.sessions }
              match env.registerLog with
              | Except.error e => ⟨mgr1, [], false, Except.error e⟩
              | Except.ok _ =>
                match env.pubStarting with
                | Except.error e => ⟨mgr1, [], false, Except.error e⟩
                | Except.ok _ =>
                  startProxyTry env mgr1 sid port host session
                    [startingPatch port host]

/-- The outcomes of the external effects of one stopProxy call: whether
the recorded pid is still alive, the outcome of the stopped-state
publication, and the stop timestamp. -/
structure StopEnv where
  running : Bool
  pubStopped : Except MErr Unit
  now : String
deriving Repr

/-- The observable outcome of one stopProxy call. -/
structure StopOutcome where
  mgr : MgrState
  pubs : List MitmPatch
  killed : Bool
  result : Except MErr Unit

/-- The stopped publication of stopProxy: status stopped with the pid
explicitly cleared. -/
def stoppedPatch : MitmPatch :=
  { emptyPatch with status := some "stopped", pid := some none }

/-- ProxyManager.stopProxy: fail when no in-memory session exists; kill
the process when a pid is recorded and alive; close and discard the
traffic store; mutate the session to stopped with a stop time; publish
the stopped state; only then unregister the log and remove the session
from the map.  A failing publication propagates after all the earlier
mutations have happened, leaving the mutated session in the map. -/
def stopProxy (env : StopEnv) (mgr : MgrState) (sid : String) : StopOutcome :=
  match alGet sid mgr.sessions with
  | none =>
    ⟨mgr, [], false,
      Except.error ⟨ErrCode.PROXY_NOT_RUNNING,
        "No proxy running for session: " ++ sid⟩⟩
  | some session =>
    let killed := match session.pid with
      | some p => if p = 0 then false else env.running
      | none => false
    let mgr1 : MgrState := match alGet sid mgr.stores with
      | some _ => { mgr with stores := alErase sid mgr.stores }
      | none => mgr
    let session2 := { session with status := "stopped", stoppedAt := some env.now }
    let mgr2 : MgrState := { mgr1 with sessions := alSet sid session2 mgr1.sessions }
    match env.pubStopped with
    | Except.error e => ⟨mgr2, [], killed, Except.error e⟩
    | Except.ok _ =>
      ⟨{ mgr2 with sessions := alErase sid mgr2.sessions },
        [stoppedPatch], killed, Except.ok ()⟩

/-- The rendering of a nullable number in a JavaScript template string. -/
def jsShowIntOpt : Option Int → String
  | none => "null"
  | some n => toString n

/-- The rendering of a nullable string in a JavaScript template string. -/
def jsShowStrOpt : Option String → String
  | none => "null"
  | some s => s

/-- The message published by handleProcessExit. -/
def exitMessage (code : Option Int) (signal : Option String) : String :=
  "Process exited with code " ++ jsShowIntOpt code ++ ", signal " ++
    jsShowStrOpt signal

/-- ProxyManager.handleProcessExit, fired when the capture process
exits: when the in-memory session is still ready, it transitions to
status error and the exit message is published into shared state
asynchronously; a failing publication is logged, not raised (pubOk
false yields no publication).  In every other case nothing changes. -/
def handleProcessExit (pubOk : Bool) (mgr : MgrState) (sid : String)
    (code : Option Int) (signal : Option String) :
    MgrState × List MitmPatch :=
  match alGet sid mgr.sessions with
  | some session =>
    if session.status = "ready" then
      let session2 := { session with status := "error" }
      let mgr2 : MgrState := { mgr with sessions := alSet sid session2 mgr.sessions }
      (mgr2, if pubOk then [errorPatch (exitMessage code signal)] else [])
    else (mgr, [])
  | none => (mgr, [])

/-! ## The status tool (src/tools/status-tool.ts) -/

/-- The object serialized into the success response of the status tool:
the session fields plus live traffic statistics (zeroed when no store is
bound).  The response carries no error or message field. -/
structure StatusReport where
  ok : Bool
  sessionId : String
  status : String
  proxyPort : Nat
  proxyHost : String
  pid : Option Nat
  startedAt : Option String
  stats : TrafficStats
deriving DecidableEq, Repr

/-- The status tool: PROXY_NOT_RUNNING for an unknown id, otherwise the
current in-memory session record together with statistics computed from
the store after a reload against the current log file. -/
def statusTool (parse : List Char → Option JsonlEntry) (mgr : MgrState)
    (fileContent : List Char) (nowMs : Int) (sid : String) :
    Except MErr StatusReport :=
  match alGet sid mgr.sessions with
  | none =>
    Except.error ⟨ErrCode.PROXY_NOT_RUNNING,
      "No proxy running for session: " ++ sid⟩
  | some session =>
    let stats := match alGet sid mgr.stores with
      | some st => statsOf (reloadStore parse st fileContent).entries nowMs
      | none =>
        { totalEntries := 0, totalRequestBytes := 0
          totalResponseBytes := 0, entriesLast60s := 0 }
    Except.ok
      { ok := true, sessionId := session.sessionId, status := session.status
        proxyPort := session.proxyPort, proxyHost := session.proxyHost
        pid := session.pid, startedAt := session.startedAt, stats := stats }

/-- Every textual atom of the serialized status response, in field
order; the claim that the status response contains some message is
formalized as substring containment in one of these atoms. -/
def statusReportStrings (r : StatusReport) : List String :=
  [if r.ok then "true" else "false", r.sessionId, r.status,
    toString r.proxyPort, r.proxyHost,
    jsShowIntOpt (r.pid.map Int.ofNat), jsShowStrOpt r.startedAt,
    toString r.stats.totalEntries, toString r.stats.totalRequestBytes,
    toString r.stats.totalResponseBytes, toString r.stats.entriesLast60s]

/-! ## Concrete data for instance checks and witnesses -/

/-- A record with the given id, capture time and response status, and
neutral values everywhere else. -/
def mkEntry (i : String) (ts : Int) (st : Int) : JsonlEntry :=
  { id := i, timestamp := i, timestampMs := ts
    request :=
      { method := "GET", url := "http://example.test/a", host := "example.test"
        path := "/a", httpVersion := "HTTP/1.1", headers := [], queryString := []
        bodySize := 0, body := none }
    response :=
      { status := st, statusText := "OK", httpVersion := "HTTP/1.1"
        headers := [], contentType := "application/json", bodySize := 0
        body := none }
    timings :=
      { blocked := 0, dns := 0, connect := 0, ssl := 0, send := 0, wait := 0
        receive := 0 }
    serverIPAddress := none }

/-- Ten matching records with capture times 0 through 9. -/
def demoTen : List JsonlEntry :=
  [mkEntry "e0" 0 200, mkEntry "e1" 1 200, mkEntry "e2" 2 200,
    mkEntry "e3" 3 200, mkEntry "e4" 4 200, mkEntry "e5" 5 200,
    mkEntry "e6" 6 200, mkEntry "e7" 7 200, mkEntry "e8" 8 200,
    mkEntry "e9" 9 200]

/-- A filterless query with limit 3 and offset 3. -/
def paginationOpts : QueryOptions :=
  { startTimeMs := none, endTimeMs := none, urlPattern := none, method := none
    statusCode := none, statusRange := none, contentType := none
    limit := 3, offset := 3, includeBody := false }

/-- A query combining the exact status code 404 with the status range
2xx, whose interval does not contain 404. -/
def conflictOpts : QueryOptions :=
  { startTimeMs := none, endTimeMs := none, urlPattern := none, method := none
    statusCode := some 404, statusRange := some "2xx", contentType := none
    limit := 50, offset := 0, includeBody := false }

/-! ## Theorems -/

/-- The descending-timestamp preorder used by the query sort is total. -/
theorem tsDescTotal :
    ∀ a b : JsonlEntry,
      b.timestampMs ≤ a.timestampMs ∨ a.timestampMs ≤ b.timestampMs :=
  fun a b => le_total b.timestampMs a.timestampMs

/-- Claim C1: for every loaded record set and every query filter,
TrafficStore.query returns the surviving records sorted by timestampMs
in descending order, reports the total as the number of filtered records
before pagination, and returns as entries exactly the slice from offset
to offset plus limit of the sorted filtered sequence; in particular, for
10 matching records with limit 3 and offset 3 it returns the records at
0-indexed ranks 3, 4, 5 and total 10. -/
theorem query_sorted_total_pagination :
    (∀ (opts : QueryOptions) (loaded : List JsonlEntry),
      (queryLoaded opts loaded).total = (applyFilters opts loaded).length ∧
      List.Sorted (fun a b => b.timestampMs ≤ a.timestampMs)
        (sortByTsDesc (applyFilters opts loaded)) ∧
      List.Perm (sortByTsDesc (applyFilters opts loaded))
        (applyFilters opts loaded) ∧
      (queryLoaded opts loaded).entries =
        List.map summarize
          (List.take opts.limit
            (List.drop opts.offset (sortByTsDesc (applyFilters opts loaded))))) ∧
    (queryLoaded paginationOpts demoTen).total = 10 ∧
    List.map (fun s => s.id) (queryLoaded paginationOpts demoTen).entries =
      ["e6", "e5", "e4"] := by
  refine ⟨fun opts loaded => ?_, by decide, by decide⟩
  haveI hTot :
      IsTotal JsonlEntry (fun a b => b.timestampMs ≤ a.timestampMs) :=
    ⟨tsDescTotal⟩
  haveI hTrans :
      IsTrans JsonlEntry (fun a b => b.timestampMs ≤ a.timestampMs) :=
    ⟨fun _ _ _ h1 h2 => le_trans h2 h1⟩
  refine ⟨?_, ?_, ?_, rfl⟩
  · exact (List.perm_insertionSort _ (applyFilters opts loaded)).length_eq
  · exact List.sorted_insertionSort _ (applyFilters opts loaded)
  · exact List.perm_insertionSort _ (applyFilters opts loaded)

/-- If the exact-status filter and the status-range filter conflict, the
two consecutive filters of the query cascade leave nothing. -/
theorem filter_status_conflict_nil (c : Int) (r : String)
    (hkeeps : statusRangeKeeps r c = false) (l : List JsonlEntry) :
    (List.filter (fun e => statusRangeKeeps r e.response.status)
      (List.filter (fun e => e.response.status = c) l)) = [] := by
  rw [List.filter_filter]
  rw [List.filter_eq_nil_iff]
  intro e _ h
  rw [Bool.and_eq_true] at h
  obtain ⟨h1, h2⟩ := h
  have hst : e.response.status = c := of_decide_eq_true h2
  rw [hst] at h1
  rw [hkeeps] at h1
  exact Bool.false_ne_true h1

/-- A conflicting exact-status and status-range combination empties the
whole filter cascade, whatever the other filters are. -/
theorem applyFilters_status_conflict_nil (opts : QueryOptions)
    (loaded : List JsonlEntry) (c : Int) (r : String)
    (hc : opts.statusCode = some c) (hr : opts.statusRange = some r)
    (hne : r ≠ "") (hkeeps : statusRangeKeeps r c = false) :
    applyFilters opts loaded = [] := by
  unfold applyFilters
  simp only [hc, hr, if_neg hne]
  split
  · split
    · exact filter_status_conflict_nil c r hkeeps _
    · rw [filter_status_conflict_nil c r hkeeps _]
      simp
  · exact filter_status_conflict_nil c r hkeeps _

/-- Claim C6: a statusRange of the form one digit followed by anything
matches exactly the records whose response status lies in the inclusive
interval from digit times 100 to digit times 100 plus 99 (so 4xx matches
400 and 499 but neither 399 nor 500), and statusRange is combined with
the exact statusCode filter by conjunction, so whenever the exact code
lies outside the range interval the query returns zero matches on every
record set. -/
theorem statusRange_interval_and_conjunction :
    (∀ (c : Char) (s : List Char) (status : Int), c.isDigit = true →
      (statusRangeKeeps (String.mk (c :: s)) status = true ↔
        ((c.toNat : Int) - 48) * 100 ≤ status ∧
          status ≤ ((c.toNat : Int) - 48) * 100 + 99)) ∧
    statusRangeKeeps "4xx" 400 = true ∧
    statusRangeKeeps "4xx" 499 = true ∧
    statusRangeKeeps "4xx" 399 = false ∧
    statusRangeKeeps "4xx" 500 = false ∧
    (∀ (opts : QueryOptions) (loaded : List JsonlEntry) (c : Int) (r : String),
      opts.statusCode = some c → opts.statusRange = some r → r ≠ "" →
      statusRangeKeeps r c = false →
      queryLoaded opts loaded = { entries := [], total := 0 }) ∧
    (queryLoaded conflictOpts demoTen = { entries := [], total := 0 }) := by
  refine ⟨?_, by decide, by decide, by decide, by decide, ?_, by decide⟩
  · intro c s status hdigit
    unfold statusRangeKeeps parseIntDigit
    rw [show (String.mk (c :: s)).toList = c :: s from rfl]
    simp [hdigit, decide_eq_true_iff]
  · intro opts loaded c r hc hr hne hkeeps
    have h := applyFilters_status_conflict_nil opts loaded c r hc hr hne hkeeps
    unfold queryLoaded
    rw [h]
    simp [sortByTsDesc]

/-- Counting a removal: the number of records a filter drops equals the
length of the complementary filter. -/
theorem length_sub_filter {α : Type} (p q : α → Bool)
    (hpq : ∀ a, q a = !p a) (l : List α) :
    l.length - (l.filter p).length = (l.filter q).length := by
  induction l with
  | nil => rfl
  | cons a t ih =>
    have hle := List.length_filter_le p t
    cases hp : p a with
    | true =>
      have hq : q a = false := by rw [hpq a, hp]; rfl
      simp [List.filter_cons, hp, hq]
      omega
    | false =>
      have hq : q a = true := by rw [hpq a, hp]; rfl
      simp [List.filter_cons, hp, hq]
      omega

/-- Joining a nonempty first line with further lines never yields the
empty text. -/
theorem joinLines_cons_ne_nil (s : List Char) (ls : List (List Char))
    (hs : s ≠ []) : joinLines (s :: ls) ≠ [] := by
  cases ls with
  | nil => simpa [joinLines] using hs
  | cons s2 rest => simp [joinLines]

/-- The record set clear retains under a threshold: the reloaded records
whose capture time is at least the threshold. -/
def retainedAfter (parse : List Char → Option JsonlEntry) (st : StoreState)
    (fileContent : List Char) (T : Int) : List JsonlEntry :=
  (reloadStore parse st fileContent).entries.filter (fun e => T ≤ e.timestampMs)

/-- Claim C2: clear with a threshold retains in memory exactly the
records with timestampMs at least the threshold, removes all records
when no threshold is given, returns the number of removed records,
rewrites the log file as one serialized record per line with a trailing
newline exactly when the retained set is nonempty, and resets
lastReadPosition to the size of the rewritten file.  The hypothesis
states that the record serializer never produces an empty line, which
holds of JSON.stringify on an object. -/
theorem clear_retains_counts_rewrites :
    ∀ (parse : List Char → Option JsonlEntry)
      (serialize : JsonlEntry → List Char) (st : StoreState)
      (fileContent : List Char) (T : Int),
      (∀ e, serialize e ≠ []) →
      ((clearStore parse serialize st fileContent (some T)).store.entries =
          retainedAfter parse st fileContent T ∧
        (clearStore parse serialize st fileContent (some T)).removed =
          ((reloadStore parse st fileContent).entries.filter
            (fun e => e.timestampMs < T)).length ∧
        (clearStore parse serialize st fileContent (some T)).fileContent =
          (if retainedAfter parse st fileContent T = [] then []
            else joinLines
              ((retainedAfter parse st fileContent T).map serialize) ++ ['\n']) ∧
        ((clearStore parse serialize st fileContent (some T)).fileContent.getLast? =
            some '\n' ↔ retainedAfter parse st fileContent T ≠ []) ∧
        (clearStore parse serialize st fileContent (some T)).store.lastReadPosition =
          byteSize (clearStore parse serialize st fileContent (some T)).fileContent ∧
        (clearStore parse serialize st fileContent none).store.entries = [] ∧
        (clearStore parse serialize st fileContent none).removed =
          (reloadStore parse st fileContent).entries.length ∧
        (clearStore parse serialize st fileContent none).fileContent = []) := by
  intro parse serialize st fileContent T hser
  have hpq : ∀ e : JsonlEntry,
      (decide (e.timestampMs < T)) = !decide (T ≤ e.timestampMs) := by
    intro e
    rw [← decide_not]
    exact decide_eq_decide.mpr not_le.symm
  have hcontent :
      (joinLines ((retainedAfter parse st fileContent T).map serialize) = []) ↔
        retainedAfter parse st fileContent T = [] := by
    constructor
    · intro hj
      cases hrem : retainedAfter parse st fileContent T with
      | nil => rfl
      | cons e rest =>
        rw [hrem] at hj
        exact absurd hj (joinLines_cons_ne_nil _ _ (hser e))
    · intro hrem
      rw [hrem]
      rfl
  refine ⟨rfl, ?_, ?_, ?_, rfl, rfl, by simp [clearStore], rfl⟩
  · show (reloadStore parse st fileContent).entries.length -
        ((reloadStore parse st fileContent).entries.filter
          (fun e => T ≤ e.timestampMs)).length = _
    exact length_sub_filter _ _ hpq _
  · show (if joinLines ((retainedAfter parse st fileContent T).map serialize) = []
        then ([] : List Char)
        else joinLines ((retainedAfter parse st fileContent T).map serialize) ++
          ['\n']) = _
    by_cases hj :
        joinLines ((retainedAfter parse st fileContent T).map serialize) = []
    · rw [if_pos hj, if_pos (hcontent.mp hj)]
    · rw [if_neg hj, if_neg (fun hrem => hj (hcontent.mpr hrem))]
  · show ((if joinLines ((retainedAfter parse st fileContent T).map serialize) = []
        then ([] : List Char)
        else joinLines ((retainedAfter parse st fileContent T).map serialize) ++
          ['\n']).getLast? = some '\n') ↔ _
    by_cases hj :
        joinLines ((retainedAfter parse st fileContent T).map serialize) = []
    · rw [if_pos hj]
      simp [hcontent.mp hj]
    · rw [if_neg hj]
      simp only [List.getLast?_append, List.getLast?_singleton]
      constructor
      · intro _ hrem
        exact hj (hcontent.mpr hrem)
      · intro _
        simp

/-! ## Split/join/trim facts for the clear-then-reload round trip -/

/-- A nonempty line that does not start with whitespace. -/
def headNotWs : List Char → Bool
  | [] => false
  | c :: _ => !c.isWhitespace

/-- A nonempty line that does not end with whitespace. -/
def lastNotWs (l : List Char) : Bool :=
  headNotWs l.reverse

/-- The shape of one serialized JSON record: nonempty, no whitespace at
either end, and no embedded newline.  JSON.stringify on an object always
produces such a line (it starts with a brace and ends with a brace). -/
def goodJsonLine (l : List Char) : Bool :=
  headNotWs l && lastNotWs l && decide ('\n' ∉ l)

/-- Splitting a newline-free text yields that single segment. -/
theorem jsSplitLines_no_newline (s : List Char) (h : '\n' ∉ s) :
    jsSplitLines s = [s] := by
  induction s with
  | nil => rfl
  | cons c t ih =>
    have hc : ¬(c = '\n') := fun hcn => h (hcn ▸ List.mem_cons_self c t)
    have ht : '\n' ∉ t := fun hm => h (List.mem_cons_of_mem c hm)
    rw [jsSplitLines, if_neg hc, ih ht]

/-- Splitting across the first newline peels off the first segment. -/
theorem jsSplitLines_append (s t : List Char) (h : '\n' ∉ s) :
    jsSplitLines (s ++ '\n' :: t) = s :: jsSplitLines t := by
  induction s with
  | nil => simp [jsSplitLines]
  | cons c s2 ih =>
    have hc : ¬(c = '\n') := fun hcn => h (hcn ▸ List.mem_cons_self c s2)
    have hs2 : '\n' ∉ s2 := fun hm => h (List.mem_cons_of_mem c hm)
    rw [List.cons_append, jsSplitLines, if_neg hc, ih hs2]

/-- Splitting the newline join of newline-free lines recovers the
lines. -/
theorem jsSplitLines_joinLines (ls : List (List Char))
    (hnl : ∀ l ∈ ls, '\n' ∉ l) (hne : ls ≠ []) :
    jsSplitLines (joinLines ls) = ls := by
  induction ls with
  | nil => exact absurd rfl hne
  | cons l0 rest ih =>
    cases rest with
    | nil =>
      rw [joinLines, jsSplitLines_no_newline l0 (hnl l0 (List.mem_cons_self _ _))]
    | cons r rs =>
      rw [joinLines,
        jsSplitLines_append l0 _ (hnl l0 (List.mem_cons_self _ _)),
        ih (fun l hl => hnl l (List.mem_cons_of_mem _ hl)) (by simp)]

/-- dropWhile leaves a list alone when appending more text, provided it
already leaves the nonempty prefix alone. -/
theorem dropWhile_append_of_fix {p : Char → Bool} (A B : List Char)
    (hA : A ≠ []) (hfix : A.dropWhile p = A) :
    (A ++ B).dropWhile p = A ++ B := by
  cases A with
  | nil => exact absurd rfl hA
  | cons a t =>
    have hpa : p a = false := by
      have h0 := List.dropWhile_eq_self_iff.mp hfix (by simp)
      simpa using h0
    rw [List.cons_append, List.dropWhile_cons, hpa]
    simp

/-- A line with a non-whitespace head is left alone by dropWhile. -/
theorem headNotWs_dropWhile (l : List Char) (h : headNotWs l = true) :
    l.dropWhile Char.isWhitespace = l := by
  cases l with
  | nil => simp [headNotWs] at h
  | cons c t =>
    have hc : c.isWhitespace = false := by simpa [headNotWs] using h
    rw [List.dropWhile_cons, hc]
    simp

/-- A line with a non-whitespace head is nonempty. -/
theorem headNotWs_ne_nil (l : List Char) (h : headNotWs l = true) : l ≠ [] := by
  cases l with
  | nil => simp [headNotWs] at h
  | cons c t => simp

/-- The three components of a good serialized line. -/
theorem goodJsonLine_parts (l : List Char) (h : goodJsonLine l = true) :
    headNotWs l = true ∧ headNotWs l.reverse = true ∧ '\n' ∉ l := by
  unfold goodJsonLine lastNotWs at h
  rw [Bool.and_eq_true, Bool.and_eq_true] at h
  exact ⟨h.1.1, h.1.2, of_decide_eq_true h.2⟩

/-- The join of lines inherits the non-whitespace head of its first
line. -/
theorem headNotWs_joinLines (l0 : List Char) (rest : List (List Char))
    (h : headNotWs l0 = true) : headNotWs (joinLines (l0 :: rest)) = true := by
  cases rest with
  | nil => exact h
  | cons r rs =>
    cases l0 with
    | nil => simp [headNotWs] at h
    | cons c t => simpa [joinLines, headNotWs] using h

/-- Trailing whitespace removal leaves the reversed join of good lines
alone, because the join ends with the non-whitespace last character of
the last line. -/
theorem dropWhile_ws_reverse_join (ls : List (List Char))
    (hgood : ∀ l ∈ ls, goodJsonLine l = true) (hne : ls ≠ []) :
    (joinLines ls).reverse.dropWhile Char.isWhitespace =
      (joinLines ls).reverse := by
  induction ls with
  | nil => exact absurd rfl hne
  | cons l0 rest ih =>
    cases rest with
    | nil =>
      show (joinLines [l0]).reverse.dropWhile Char.isWhitespace = _
      rw [show joinLines [l0] = l0 from rfl]
      exact headNotWs_dropWhile _
        (goodJsonLine_parts l0 (hgood l0 (List.mem_cons_self _ _))).2.1
    | cons r rs =>
      have hrparts := goodJsonLine_parts r (hgood r (by simp))
      have hJ : joinLines (r :: rs) ≠ [] :=
        joinLines_cons_ne_nil r rs (headNotWs_ne_nil r hrparts.1)
      have hfix := ih (fun l hl => hgood l (List.mem_cons_of_mem _ hl)) (by simp)
      rw [joinLines, List.reverse_append, List.reverse_cons, List.append_assoc]
      rw [dropWhile_append_of_fix _ _ (by simpa using hJ) hfix]

/-- Trimming the rewritten file content (good lines joined by newlines
followed by one trailing newline) yields exactly the join. -/
theorem jsTrim_join_newline (ls : List (List Char))
    (hgood : ∀ l ∈ ls, goodJsonLine l = true) (hne : ls ≠ []) :
    jsTrim (joinLines ls ++ ['\n']) = joinLines ls := by
  obtain ⟨l0, rest, rfl⟩ : ∃ l0 rest, ls = l0 :: rest := by
    cases ls with
    | nil => exact absurd rfl hne
    | cons a b => exact ⟨a, b, rfl⟩
  have hhead : headNotWs (joinLines (l0 :: rest)) = true :=
    headNotWs_joinLines l0 rest
      (goodJsonLine_parts l0 (hgood l0 (List.mem_cons_self _ _))).1
  have hfront : (joinLines (l0 :: rest) ++ ['\n']).dropWhile Char.isWhitespace =
      joinLines (l0 :: rest) ++ ['\n'] :=
    dropWhile_append_of_fix _ _ (headNotWs_ne_nil _ hhead)
      (headNotWs_dropWhile _ hhead)
  unfold jsTrim
  rw [hfront, List.reverse_append]
  rw [show (['\n'] : List Char).reverse = ['\n'] from rfl]
  rw [List.singleton_append, List.dropWhile_cons, if_pos (by decide)]
  rw [dropWhile_ws_reverse_join (l0 :: rest) hgood hne]
  simp

/-- Parsing back the serialization of every record recovers the records:
the per-line round trip is the identity on the retained set. -/
theorem filterMap_parse_serialize (parse : List Char → Option JsonlEntry)
    (serialize : JsonlEntry → List Char) (l : List JsonlEntry)
    (h : ∀ e ∈ l, parse (serialize e) = some e) :
    List.filterMap parse (l.map serialize) = l := by
  induction l with
  | nil => rfl
  | cons e rest ih =>
    rw [List.map_cons, List.filterMap_cons, h e (List.mem_cons_self _ _),
      ih (fun x hx => h x (List.mem_cons_of_mem _ hx))]

/-- Good lines survive the nonempty-line filter of the reload split. -/
theorem filter_pos_length_of_good (ls : List (List Char))
    (hgood : ∀ l ∈ ls, goodJsonLine l = true) :
    ls.filter (fun l => 0 < l.length) = ls := by
  rw [List.filter_eq_self]
  intro l hl
  have := headNotWs_ne_nil l (goodJsonLine_parts l (hgood l hl)).1
  simpa [List.length_pos] using this

/-- The rewritten file of a nonempty survivor set is nonempty in
bytes. -/
theorem byteSize_append_newline (l : List Char) :
    0 < byteSize (l ++ ['\n']) := by
  unfold byteSize
  rw [List.map_append, List.sum_append]
  have h1 : ((['\n'] : List Char).map Char.utf8Size).sum = 1 := by decide
  omega

/-- A fresh store reloads the whole file whenever the file is
nonempty in bytes. -/
theorem reloadStore_initial_entries (parse : List Char → Option JsonlEntry)
    (content : List Char) (h : 0 < byteSize content) :
    (reloadStore parse initialStore content).entries =
      reloadEntries parse content := by
  have h0 : initialStore.lastReadPosition = 0 := rfl
  have hneg : ¬(byteSize content ≤ initialStore.lastReadPosition) := by omega
  simp only [reloadStore]
  rw [if_neg hneg]

/-- Claim C9: after clear with threshold T, initializing a fresh store
against the rewritten log file and reloading yields exactly the survivor
set: serializing each retained record as one line and re-parsing those
lines is the identity on the retained records.  The hypotheses state
that the parse of the serialization of each retained record is that
record and that each serialized record is one good JSON line, both of
which hold of JSON.stringify and JSON.parse. -/
theorem clear_reload_roundtrip :
    ∀ (parse : List Char → Option JsonlEntry)
      (serialize : JsonlEntry → List Char) (st : StoreState)
      (fileContent : List Char) (T : Int),
      (∀ e ∈ retainedAfter parse st fileContent T,
        parse (serialize e) = some e) →
      (∀ e ∈ retainedAfter parse st fileContent T,
        goodJsonLine (serialize e) = true) →
      (reloadStore parse initialStore
          (clearStore parse serialize st fileContent (some T)).fileContent).entries =
        (clearStore parse serialize st fileContent (some T)).store.entries := by
  intro parse serialize st fileContent T hparse hgood
  show (reloadStore parse initialStore
      (if joinLines ((retainedAfter parse st fileContent T).map serialize) = []
        then []
        else joinLines ((retainedAfter parse st fileContent T).map serialize) ++
          ['\n'])).entries = retainedAfter parse st fileContent T
  generalize hR : retainedAfter parse st fileContent T = R at hparse hgood ⊢
  cases R with
  | nil => rfl
  | cons e0 erest =>
    have hgood2 : ∀ l ∈ (e0 :: erest).map serialize, goodJsonLine l = true := by
      intro l hl
      obtain ⟨e, he, rfl⟩ := List.mem_map.mp hl
      exact hgood e he
    have hne0 : serialize e0 ≠ [] :=
      headNotWs_ne_nil _
        (goodJsonLine_parts _ (hgood e0 (List.mem_cons_self _ _))).1
    have hjoin : joinLines ((e0 :: erest).map serialize) ≠ [] := by
      rw [List.map_cons]
      exact joinLines_cons_ne_nil _ _ hne0
    rw [if_neg hjoin]
    rw [reloadStore_initial_entries parse _ (byteSize_append_newline _)]
    unfold reloadEntries splitNonEmptyLines
    rw [jsTrim_join_newline _ hgood2 (by simp)]
    rw [jsSplitLines_joinLines _
      (fun l hl => (goodJsonLine_parts l (hgood2 l hl)).2.2) (by simp)]
    show loadLines parse _ = _
    unfold loadLines
    rw [filter_pos_length_of_good _ hgood2]
    exact filterMap_parse_serialize parse serialize _ hparse

/-- Claim C8: reload parses each line independently and skips any line
that fails to parse; the loaded record set is exactly the parseable
lines in order, a record is loaded iff some line parses to it, and
inserting a malformed line anywhere changes nothing about what is
loaded, so a malformed line never makes query, getEntry, clear or stats
fail (they are total functions of the loaded set). -/
theorem reload_skips_malformed :
    (∀ (parse : List Char → Option JsonlEntry) (content : List Char),
      reloadEntries parse content =
        (splitNonEmptyLines content).filterMap parse) ∧
    (∀ (parse : List Char → Option JsonlEntry) (content : List Char)
      (e : JsonlEntry),
      e ∈ reloadEntries parse content ↔
        ∃ l ∈ splitNonEmptyLines content, parse l = some e) ∧
    (∀ (parse : List Char → Option JsonlEntry)
      (pre post : List (List Char)) (bad : List Char),
      parse bad = none →
      loadLines parse (pre ++ bad :: post) = loadLines parse (pre ++ post)) := by
  refine ⟨fun parse content => rfl, fun parse content e => List.mem_filterMap,
    fun parse pre post bad hbad => ?_⟩
  unfold loadLines
  rw [List.filterMap_append, List.filterMap_append, List.filterMap_cons, hbad]

/-! ## Lifecycle theorems -/

/-- Setting a key makes it present with the new value. -/
theorem alGet_alSet {α : Type} (k : String) (v : α)
    (l : List (String × α)) : alGet k (alSet k v l) = some v := by
  induction l with
  | nil => simp [alGet, alSet]
  | cons p rest ih =>
    obtain ⟨k2, v2⟩ := p
    by_cases h : k2 = k
    · simp [alSet, h, alGet]
    · simp [alSet, h, alGet, ih]

/-- Erasing a key removes it. -/
theorem alGet_alErase {α : Type} (k : String) (l : List (String × α)) :
    alGet k (alErase k l) = none := by
  induction l with
  | nil => rfl
  | cons p rest ih =>
    obtain ⟨k2, v2⟩ := p
    unfold alErase at ih ⊢
    rw [List.filter_cons]
    by_cases h : k2 = k
    · simpa [h] using ih
    · simpa [alGet, h] using ih

/-- Claim C4: for every session document and every partial mitm update,
updateMitm changes only the nested mitm sub-object, shallow-merging the
given fields into it, and leaves every other top-level field of the
document unchanged. -/
theorem updateMitm_frame_preserving :
    ∀ (α : Type) (doc : SessionState α) (p : MitmPatch),
      (updateMitmDoc doc p).sessionId = doc.sessionId ∧
      (updateMitmDoc doc p).type = doc.type ∧
      (updateMitmDoc doc p).status = doc.status ∧
      (updateMitmDoc doc p).createdAt = doc.createdAt ∧
      (updateMitmDoc doc p).stoppedAt = doc.stoppedAt ∧
      (updateMitmDoc doc p).android = doc.android ∧
      (updateMitmDoc doc p).mitm =
        some (applyPatch (doc.mitm.getD emptyMitm) p) ∧
      (∀ m : MitmState,
        (applyPatch m p).status =
          (match p.status with | some s => some s | none => m.status) ∧
        (applyPatch m p).proxyPort =
          (match p.proxyPort with | some v => some v | none => m.proxyPort) ∧
        (applyPatch m p).proxyHost =
          (match p.proxyHost with | some v => some v | none => m.proxyHost) ∧
        (applyPatch m p).pid =
          (match p.pid with | some v => v | none => m.pid) ∧
        (applyPatch m p).androidProxyConfig =
          (match p.androidProxyConfig with
            | some v => some v | none => m.androidProxyConfig) ∧
        (applyPatch m p).error =
          (match p.error with | some v => some v | none => m.error)) :=
  fun _ _ _ =>
    ⟨rfl, rfl, rfl, rfl, rfl, rfl, rfl,
      fun _ => ⟨rfl, rfl, rfl, rfl, rfl, rfl⟩⟩

/-- Claim C5: a startProxy call whose sessionId already has an
in-memory session in status starting or ready fails with
PROXY_ALREADY_RUNNING and has no effect: no process is spawned and the
session map, the traffic stores and the shared state (no publication)
are unchanged. -/
theorem start_already_running_rejected :
    ∀ (α : Type) (env : StartEnv α) (mgr : MgrState) (input : StartInput)
      (existing : ProxySession),
      alGet input.sessionId mgr.sessions = some existing →
      (existing.status = "starting" ∨ existing.status = "ready") →
      startProxy env mgr input =
        { mgr := mgr, pubs := [], spawned := false
          result := Except.error
            { code := ErrCode.PROXY_ALREADY_RUNNING
              msg := "Proxy already running for session: " ++ input.sessionId } } := by
  intro α env mgr input existing hget hstat
  have hact : hasActiveSession mgr input.sessionId = true := by
    unfold hasActiveSession
    rw [hget]
    rcases hstat with h | h <;> simp [h]
  simp only [startProxy]
  rw [if_pos hact]

/-- A concrete ready session. -/
def wSession : ProxySession :=
  { sessionId := "s1", status := "ready", proxyPort := 8080
    proxyHost := "0.0.0.0", pid := some 42, jsonlPath := "p", logPath := "q"
    startedAt := some "t", stoppedAt := none }

/-- A concrete manager holding one ready session with its store. -/
def wMgr : MgrState :=
  { sessions := [("s1", wSession)], stores := [("s1", initialStore)] }

/-- A concrete shared document in peer status active. -/
def wDoc : SessionState String :=
  { sessionId := "s1", type := "standard", status := "active"
    createdAt := "t0", stoppedAt := none, android := none, mitm := none }

/-- A start environment in which every external effect succeeds. -/
def wEnvOk : StartEnv String :=
  { readState := Except.ok wDoc, findPort := some 8081
    ensureDir := Except.ok "dir", registerLog := Except.ok ()
    pubStarting := Except.ok (), storeInit := Except.ok ()
    spawnResult := Except.ok 7, pubReady := Except.ok ()
    pubError := Except.ok (), now := "t1" }

/-- Witness for claim C5 at a concrete ready session. -/
theorem start_already_running_witness :
    startProxy wEnvOk wMgr { sessionId := "s1", port := none, listenHost := none } =
      { mgr := wMgr, pubs := [], spawned := false
        result := Except.error
          { code := ErrCode.PROXY_ALREADY_RUNNING
            msg := "Proxy already running for session: " ++ "s1" } } :=
  start_already_running_rejected String wEnvOk wMgr
    { sessionId := "s1", port := none, listenHost := none } wSession rfl
    (Or.inr rfl)

/-- Claim C10: stopProxy is not atomic on error.  For a session present
in the in-memory map, when the shared-state publication fails, the call
raises that failure after the process kill has been decided, the traffic
store has been removed, and the session has been mutated to status
stopped with stoppedAt set, yet the mutated session is still in the
session map. -/
theorem stop_nonatomic_on_publish_failure :
    ∀ (env : StopEnv) (mgr : MgrState) (sid : String)
      (session : ProxySession) (e : MErr),
      alGet sid mgr.sessions = some session →
      env.pubStopped = Except.error e →
      (stopProxy env mgr sid).result = Except.error e ∧
      alGet sid (stopProxy env mgr sid).mgr.sessions =
        some { session with status := "stopped", stoppedAt := some env.now } ∧
      alGet sid (stopProxy env mgr sid).mgr.stores = none ∧
      (stopProxy env mgr sid).pubs = [] ∧
      (stopProxy env mgr sid).killed =
        (match session.pid with
          | some p => if p = 0 then false else env.running
          | none => false) := by
  intro env mgr sid session e hget hpub
  unfold stopProxy
  simp only [hget, hpub]
  cases hst : alGet sid mgr.stores with
  | some stv =>
    refine ⟨by trivial, ?_, ?_, by trivial, by trivial⟩
    · simpa using alGet_alSet sid _ _
    · simpa using alGet_alErase sid mgr.stores
  | none =>
    refine ⟨by trivial, ?_, ?_, by trivial, by trivial⟩
    · simpa using alGet_alSet sid _ _
    · simpa using hst

/-- A stop environment whose stopped-state publication fails with a
write error. -/
def wStopEnvFail : StopEnv :=
  { running := true
    pubStopped := Except.error
      { code := ErrCode.STATE_WRITE_FAILED, msg := "disk full" }
    now := "t2" }

/-- Witness for claim C10 at a concrete session and failing
publication. -/
theorem stop_nonatomic_witness :
    (stopProxy wStopEnvFail wMgr "s1").result =
        Except.error { code := ErrCode.STATE_WRITE_FAILED, msg := "disk full" } ∧
      alGet "s1" (stopProxy wStopEnvFail wMgr "s1").mgr.sessions =
        some { wSession with status := "stopped", stoppedAt := some "t2" } ∧
      alGet "s1" (stopProxy wStopEnvFail wMgr "s1").mgr.stores = none ∧
      (stopProxy wStopEnvFail wMgr "s1").pubs = [] ∧
      (stopProxy wStopEnvFail wMgr "s1").killed =
        (match wSession.pid with
          | some p => if p = 0 then false else wStopEnvFail.running
          | none => false) :=
  stop_nonatomic_on_publish_failure wStopEnvFail wMgr "s1" wSession
    { code := ErrCode.STATE_WRITE_FAILED, msg := "disk full" } rfl rfl

/-- A manager with no sessions and no stores. -/
def wEmptyMgr : MgrState :=
  { sessions := [], stores := [] }

/-- A start environment in which the port scan finds no free port. -/
def wEnvNoPort : StartEnv String :=
  { wEnvOk with findPort := none }

/-- Counterexample to claim C3 as stated: a failure in step 3 (port
resolution) does not transition any session to error, publishes nothing
into shared state, and fails with PORT_UNAVAILABLE rather than
MITMDUMP_START_FAILED, because port resolution lies outside the
try/catch of startProxy. -/
theorem start_port_failure_counterexample :
    (startProxy wEnvNoPort wEmptyMgr
        { sessionId := "s1", port := none, listenHost := none }).result =
      Except.error
        { code := ErrCode.PORT_UNAVAILABLE, msg := "No available port in range" } ∧
    ErrCode.PORT_UNAVAILABLE ≠ ErrCode.MITMDUMP_START_FAILED ∧
    (startProxy wEnvNoPort wEmptyMgr
        { sessionId := "s1", port := none, listenHost := none }).pubs = [] ∧
    (startProxy wEnvNoPort wEmptyMgr
        { sessionId := "s1", port := none, listenHost := none }).mgr =
      wEmptyMgr := by
  refine ⟨rfl, by decide, rfl, rfl⟩

/-- Claim C3 (amended): for every failure occurring in steps 5 to 7 of
startProxy (traffic-store initialization, process spawn, ready-state
publication), provided the catch-block error publication itself
succeeds, the session transitions to status error and stays in the map,
the error message is published into shared state before the error
surfaces (it precedes the returned failure in the publication list), and
the call fails with MITMDUMP_START_FAILED carrying the underlying cause
in its message.  Failures in steps 3 and 4 (port resolution, directory
creation, starting-state publication) instead propagate their original
error, as the counterexample shows. -/
theorem start_failure_try_error_published :
    ∀ (α : Type) (env : StartEnv α) (mgr : MgrState) (input : StartInput)
      (st : SessionState α) (mitmDir : String) (port : Nat) (cause : MErr),
      hasActiveSession mgr input.sessionId = false →
      env.readState = Except.ok st →
      st.status = "active" →
      resolvePort env input = some port →
      port ≠ 0 →
      env.ensureDir = Except.ok mitmDir →
      env.registerLog = Except.ok () →
      env.pubStarting = Except.ok () →
      env.pubError = Except.ok () →
      (env.storeInit = Except.error cause ∨
        (env.storeInit = Except.ok () ∧ env.spawnResult = Except.error cause) ∨
        (env.storeInit = Except.ok () ∧
          (∃ pid, env.spawnResult = Except.ok pid) ∧
          env.pubReady = Except.error cause)) →
      (startProxy env mgr input).result =
        Except.error
          { code := ErrCode.MITMDUMP_START_FAILED
            msg := "Failed to start mitmdump: " ++ cause.msg } ∧
      (alGet input.sessionId (startProxy env mgr input).mgr.sessions).map
        (fun s => s.status) = some "error" ∧
      (startProxy env mgr input).pubs =
        [startingPatch port (resolveListenHost input), errorPatch cause.msg] := by
  intro α env mgr input st mitmDir port cause hactive hread hstatus hport
    hport0 hdir hreg hpubS hpubE hfail
  have hnotact : ¬(hasActiveSession mgr input.sessionId = true) := by
    rw [hactive]
    exact Bool.false_ne_true
  have hstat2 : ¬(st.status ≠ "active") := fun h => h hstatus
  simp only [startProxy]
  rw [if_neg hnotact]
  simp only [hread]
  rw [if_neg hstat2]
  simp only [hport]
  rw [if_neg hport0]
  simp only [hdir, hreg, hpubS]
  rcases hfail with hstore | ⟨hstore, hspawn⟩ | ⟨hstore, ⟨pid, hspawn⟩, hpubR⟩
  · simp only [startProxyTry, hstore, startProxyCatch, hpubE]
    refine ⟨by trivial, ?_, by trivial⟩
    simp only [alGet_alSet]
    rfl
  · simp only [startProxyTry, hstore, hspawn, startProxyCatch, hpubE]
    refine ⟨by trivial, ?_, by trivial⟩
    simp only [alGet_alSet]
    rfl
  · simp only [startProxyTry, hstore, hspawn, hpubR, startProxyCatch, hpubE]
    refine ⟨by trivial, ?_, by trivial⟩
    simp only [alGet_alSet]
    rfl

/-- A start environment in which the process spawn fails. -/
def wEnvSpawnFail : StartEnv String :=
  { wEnvOk with
    spawnResult := Except.error
      { code := ErrCode.INTERNAL_ERROR, msg := "spawn ENOENT" } }

/-- Witness for the amended claim C3 at a concrete spawn failure. -/
theorem start_failure_try_witness :
    (startProxy wEnvSpawnFail wEmptyMgr
        { sessionId := "s1", port := none, listenHost := none }).result =
      Except.error
        { code := ErrCode.MITMDUMP_START_FAILED
          msg := "Failed to start mitmdump: " ++ "spawn ENOENT" } ∧
    (alGet "s1" (startProxy wEnvSpawnFail wEmptyMgr
        { sessionId := "s1", port := none, listenHost := none }).mgr.sessions).map
      (fun s => s.status) = some "error" ∧
    (startProxy wEnvSpawnFail wEmptyMgr
        { sessionId := "s1", port := none, listenHost := none }).pubs =
      [startingPatch 8081
        (resolveListenHost { sessionId := "s1", port := none, listenHost := none }),
        errorPatch "spawn ENOENT"] :=
  start_failure_try_error_published String wEnvSpawnFail wEmptyMgr
    { sessionId := "s1", port := none, listenHost := none } wDoc "dir" 8081
    { code := ErrCode.INTERNAL_ERROR, msg := "spawn ENOENT" }
    rfl rfl rfl rfl (by decide) rfl rfl rfl rfl
    (Or.inr (Or.inl ⟨rfl, rfl⟩))

/-- The status report produced for the concrete crashed session. -/
def wCrashReport : StatusReport :=
  { ok := true, sessionId := "s1", status := "error", proxyPort := 8080
    proxyHost := "0.0.0.0", pid := some 42, startedAt := some "t"
    stats :=
      { totalEntries := 0, totalRequestBytes := 0, totalResponseBytes := 0
        entriesLast60s := 0 } }

/-- Counterexample to claim C7 as stated: after the capture process of
a ready session exits, a status call does report status error, but no
textual atom of the status response contains the exit-code/signal
message; that message is only published into shared state, and the
status response carries no message field at all. -/
theorem crash_status_no_message_counterexample :
    statusTool (fun _ => none)
        (handleProcessExit true wMgr "s1" (some 1) none).1 [] 0 "s1" =
      Except.ok wCrashReport ∧
    wCrashReport.status = "error" ∧
    (statusReportStrings wCrashReport).any
      (fun s => listContainsSub s.toList
        (exitMessage (some 1) none).toList) = false := by
  refine ⟨rfl, rfl, ?_⟩
  decide

/-- The status tool reports the status of the stored in-memory
session. -/
theorem statusTool_status_of_mem (parse : List Char → Option JsonlEntry)
    (mgr2 : MgrState) (fc : List Char) (nowMs : Int) (sid : String)
    (session2 : ProxySession)
    (hget : alGet sid mgr2.sessions = some session2) :
    ∃ r, statusTool parse mgr2 fc nowMs sid = Except.ok r ∧
      r.status = session2.status := by
  unfold statusTool
  simp only [hget]
  exact ⟨_, rfl, rfl⟩

/-- Claim C7 (amended): whenever the capture process exits while the
in-memory session status is ready, the session transitions to status
error and a message containing the exit code and signal is published
into the shared-state mitm sub-object (when that asynchronous
publication succeeds); a subsequent status call for that sessionId
reports status error, without any explicit stop call — the exit message
itself is in shared state, not in the status response. -/
theorem crash_reconciliation_error_status :
    ∀ (mgr : MgrState) (sid : String) (session : ProxySession)
      (code : Option Int) (signal : Option String),
      alGet sid mgr.sessions = some session →
      session.status = "ready" →
      alGet sid (handleProcessExit true mgr sid code signal).1.sessions =
        some { session with status := "error" } ∧
      (handleProcessExit true mgr sid code signal).2 =
        [errorPatch (exitMessage code signal)] ∧
      (∀ (parse : List Char → Option JsonlEntry) (fc : List Char)
        (nowMs : Int),
        ∃ r, statusTool parse (handleProcessExit true mgr sid code signal).1
            fc nowMs sid = Except.ok r ∧
          r.status = "error") := by
  intro mgr sid session code signal hget hstatus
  have hred : (handleProcessExit true mgr sid code signal).1.sessions =
      alSet sid ({ session with status := "error" }) mgr.sessions := by
    unfold handleProcessExit
    simp only [hget]
    rw [if_pos hstatus]
  have hA : alGet sid (handleProcessExit true mgr sid code signal).1.sessions =
      some ({ session with status := "error" }) := by
    rw [hred]
    exact alGet_alSet sid _ _
  have hB : (handleProcessExit true mgr sid code signal).2 =
      [errorPatch (exitMessage code signal)] := by
    unfold handleProcessExit
    simp only [hget]
    rw [if_pos hstatus]
    rfl
  refine ⟨hA, hB, fun parse fc nowMs => ?_⟩
  obtain ⟨r, hr, hrs⟩ := statusTool_status_of_mem parse _ fc nowMs sid _ hA
  exact ⟨r, hr, hrs⟩

/-- Witness for the amended claim C7 at a concrete ready session and a
concrete exit with code 1 and no signal. -/
theorem crash_reconciliation_witness :
    alGet "s1" (handleProcessExit true wMgr "s1" (some 1) none).1.sessions =
      some ({ wSession with status := "error" }) ∧
    (handleProcessExit true wMgr "s1" (some 1) none).2 =
      [errorPatch (exitMessage (some 1) none)] :=
  ⟨(crash_reconciliation_error_status wMgr "s1" wSession (some 1) none
      rfl rfl).1,
    (crash_reconciliation_error_status wMgr "s1" wSession (some 1) none
      rfl rfl).2.1⟩

/-- Witness for claim C6: the interval form at the concrete range 2xx
and the guaranteed-empty conflicting combination at concrete options. -/
theorem statusRange_witness :
    (statusRangeKeeps (String.mk ('2' :: ['x', 'x'])) 250 = true ↔
      (('2'.toNat : Int) - 48) * 100 ≤ 250 ∧
        250 ≤ (('2'.toNat : Int) - 48) * 100 + 99) ∧
    queryLoaded conflictOpts demoTen = { entries := [], total := 0 } :=
  ⟨statusRange_interval_and_conjunction.1 '2' ['x', 'x'] 250 (by decide),
    statusRange_interval_and_conjunction.2.2.2.2.2.1 conflictOpts demoTen
      404 "2xx" rfl rfl (by decide) (by decide)⟩

/-- The concrete record serializer used by the store witnesses. -/
def demoSerialize : JsonlEntry → List Char :=
  fun e => 'r' :: e.id.toList

/-- The concrete line parser used by the store witnesses: it inverts
demoSerialize on the two demo records. -/
def demoParse : List Char → Option JsonlEntry :=
  fun l =>
    if l = demoSerialize (mkEntry "a" 100 200) then some (mkEntry "a" 100 200)
    else if l = demoSerialize (mkEntry "b" 300 200) then
      some (mkEntry "b" 300 200)
    else none

/-- A concrete two-record log file. -/
def demoFile : List Char :=
  joinLines [demoSerialize (mkEntry "a" 100 200),
    demoSerialize (mkEntry "b" 300 200)] ++ ['\n']

/-- Witness for claim C2 at a concrete two-record file and threshold
200: the record at time 100 is removed, the record at time 300 is
retained. -/
theorem clear_witness :
    (clearStore demoParse demoSerialize initialStore demoFile
        (some 200)).store.entries =
      retainedAfter demoParse initialStore demoFile 200 ∧
    (clearStore demoParse demoSerialize initialStore demoFile
        (some 200)).removed = 1 :=
  ⟨(clear_retains_counts_rewrites demoParse demoSerialize initialStore
      demoFile 200 (fun e => by simp [demoSerialize])).1,
    by decide⟩

/-- Witness for claim C9 at the same concrete file and threshold: a
fresh store reloaded from the rewritten file holds exactly the
survivors. -/
theorem roundtrip_witness :
    (reloadStore demoParse initialStore
        (clearStore demoParse demoSerialize initialStore demoFile
          (some 200)).fileContent).entries =
      (clearStore demoParse demoSerialize initialStore demoFile
        (some 200)).store.entries :=
  clear_reload_roundtrip demoParse demoSerialize initialStore demoFile 200
    (by decide) (by decide)

/-- Witness for claim C8: inserting a concrete malformed line between
two parseable lines loads exactly the same records. -/
theorem reload_skip_witness :
    loadLines demoParse
        ([demoSerialize (mkEntry "a" 100 200)] ++ ['z'] ::
          [demoSerialize (mkEntry "b" 300 200)]) =
      loadLines demoParse
        ([demoSerialize (mkEntry "a" 100 200)] ++
          [demoSerialize (mkEntry "b" 300 200)]) :=
  reload_skips_malformed.2.2 demoParse _ _ ['z'] (by decide)

end Sniaff
